import Mathlib

/-!
Shallow embedding of the tabular analysis core of the AI-Analyst repository
(`src/modules/data_processor.py`, `src/modules/statistical_analyzer.py`, and
the insight helpers of `src/app.py`), together with proofs settling the
specification claims about it.

Modelling conventions:
* A pandas DataFrame is a list of named columns; a column is typed (numeric,
  object/string, datetime) and holds optional cells (`none` models NaN/NaT).
* float64 arithmetic is idealised as exact rational arithmetic (`ℚ`); the
  spots where IEEE semantics matter (NaN comparisons being false, division
  by zero producing NaN) are modelled explicitly at those spots.
* Library routines that the source calls (`pd.to_datetime`, `str` of a
  Timestamp) are modelled by an abstract date codec, a parameter of the
  embedding; the laws pandas guarantees for them are explicit hypotheses.
  `pd.to_numeric`, `.str.strip()` and `.str.lower()` are modelled by
  concrete executable functions below.
-/

/-- A cell of a numeric pandas column: `none` is NaN. -/
abbrev NumCell := Option ℚ

/-- A pandas column: numeric (float64), object (strings), or datetime64.
Timestamps are abstracted as natural numbers. `none` cells are NaN/NaT. -/
inductive Col where
  | num (xs : List (Option ℚ))
  | obj (xs : List (Option String))
  | dt (xs : List (Option ℕ))
deriving DecidableEq, Repr

/-- A DataFrame: ordered, named columns. -/
abbrev DataFrame := List (String × Col)

/-- Number of rows stored in a column. -/
def colLen : Col → ℕ
  | Col.num xs => xs.length
  | Col.obj xs => xs.length
  | Col.dt xs => xs.length

/-- `len(df)`: the row count, read off the first column (0 for no columns). -/
def rowCount (df : DataFrame) : ℕ :=
  match df with
  | [] => 0
  | (_, c) :: _ => colLen c

/-- The DataFrame invariant: every column has the common row count. -/
def Rectangular (df : DataFrame) : Prop :=
  ∀ p ∈ df, colLen p.2 = rowCount df

/-- The non-missing values of a numeric column, in order
(pandas statistics skip NaN). -/
def validVals (xs : List (Option ℚ)) : List ℚ := xs.filterMap id

/-- Stable insertion into a sorted list: `a` goes before the first element
`b` with `le a b`. -/
def insertLe {α : Type} (le : α → α → Bool) (a : α) : List α → List α
  | [] => [a]
  | b :: bs => if le a b then a :: b :: bs else b :: insertLe le a bs

/-- Stable insertion sort (models the sorting done inside numpy/pandas;
stability matches Python's sort). -/
def sortLe {α : Type} (le : α → α → Bool) : List α → List α
  | [] => []
  | a :: as => insertLe le a (sortLe le as)

/-- Ascending sort of rationals. -/
def sortQ (l : List ℚ) : List ℚ := sortLe (fun a b => decide (a ≤ b)) l

/-- `Series.quantile(num/den)` with pandas' default linear interpolation,
NaN skipped: position `h = (m-1)*num/den` into the ascending sorted valid
values, linear interpolation between the neighbouring order statistics.
Returns `none` (NaN) when there are no valid values. -/
def quantileND (xs : List (Option ℚ)) (num den : ℕ) : Option ℚ :=
  match sortQ (validVals xs) with
  | [] => none
  | v :: vs =>
    let m := (v :: vs).length
    let t := (m - 1) * num
    let lo := (v :: vs).getD (t / den) 0
    let hi := (v :: vs).getD (t / den + 1) lo
    some (lo + (((t % den : ℕ) : ℚ) / (den : ℚ)) * (hi - lo))

/-- `Series.mean()` over the non-missing values. -/
def meanQ (l : List ℚ) : ℚ := l.sum / (l.length : ℚ)

/-- Sum of squared deviations from the mean; the sample variance used by
`Series.std()` (ddof=1) is `ssQ l / (l.length - 1)`. -/
def ssQ (l : List ℚ) : ℚ := (l.map (fun v => (v - meanQ l) ^ 2)).sum

/-- The IQR outlier flags of `identify_outliers` (`method='iqr'`,
`statistical_analyzer.py` lines 122-129): `v < Q1 - 1.5*IQR` or
`v > Q3 + 1.5*IQR`. A NaN cell compares false, hence is never flagged;
when the column has no valid values the quantiles are NaN and every
comparison is false. -/
def iqrFlags (xs : List (Option ℚ)) : List Bool :=
  match quantileND xs 1 4, quantileND xs 3 4 with
  | some q1, some q3 =>
      xs.map (fun o =>
        match o with
        | none => false
        | some v =>
          decide (v < q1 - 3/2 * (q3 - q1) ∨ v > q3 + 3/2 * (q3 - q1)))
  | _, _ => xs.map (fun _ => false)

/-- The z-score outlier flags of `identify_outliers` (`method='zscore'`,
`statistical_analyzer.py` lines 131-136): `|(v - mean)/std| > 3` with the
sample standard deviation `std = sqrt(ss/(n-1))`.  The comparison is encoded
by its exact square form `(v-mean)^2 * (n-1) > 9 * ss`, valid when `std > 0`.
When `n < 2` the sample std is NaN, and when `std = 0` the z-score is the
IEEE quotient `0/0 = NaN`; a NaN comparison is false, so no value is flagged
in either case. NaN cells are likewise never flagged. -/
def zscoreFlags (xs : List (Option ℚ)) : List Bool :=
  let l := validVals xs
  xs.map (fun o =>
    match o with
    | none => false
    | some v =>
      if l.length < 2 then false
      else if ssQ l = 0 then false
      else decide ((v - meanQ l) ^ 2 * ((l.length : ℚ) - 1) > 9 * ssQ l))

/-- Python exception kinds raised by the analyzer. `ValueError` is the
stable invalid-argument kind (the repository's `ErrorHandler` maps it to
its invalid-value message). -/
inductive PyErr where
  | valueError
deriving DecidableEq, Repr

/-- `StatisticalAnalyzer.identify_outliers(df, column, method)`
(`statistical_analyzer.py` lines 107-139).  If the column is absent or not
numeric, an all-False Boolean series over the DataFrame's index is returned
before the method name is even inspected; otherwise the named method runs,
and an unrecognized method name raises `ValueError`. -/
def identify_outliers (df : DataFrame) (column method : String) :
    Except PyErr (List Bool) :=
  match List.lookup column df with
  | some (Col.num xs) =>
      if method = "iqr" then .ok (iqrFlags xs)
      else if method = "zscore" then .ok (zscoreFlags xs)
      else .error .valueError
  | _ => .ok (List.replicate (rowCount df) false)

/-- A fixed example table: one numeric column `v = [1,2,3,4,100]`. -/
def dfEx : DataFrame := [("v", Col.num [some 1, some 2, some 3, some 4, some 100])]

/-- If every element of a list maps to `false`, the image is an all-False
list of the same length. -/
theorem map_eq_replicate_false {α : Type} (f : α → Bool)
    (hf : ∀ a, f a = false) (xs : List α) :
    xs.map f = List.replicate xs.length false := by
  induction xs with
  | nil => rfl
  | cons a as ih => simp [hf, ih, List.replicate_succ]

/-- C3: on a table containing the named numeric column, any method name
other than "iqr" and "zscore" makes `identify_outliers` raise `ValueError`
(the stable invalid-argument kind, not an unrelated error), without
defaulting to a supported method. -/
theorem identify_outliers_bad_method (df : DataFrame) (column method : String)
    (xs : List (Option ℚ)) (h : List.lookup column df = some (Col.num xs))
    (h1 : method ≠ "iqr") (h2 : method ≠ "zscore") :
    identify_outliers df column method = .error .valueError := by
  unfold identify_outliers
  rw [h]
  simp [h1, h2]

/-- Witness for C3 at the concrete table `dfEx` and method "median". -/
theorem identify_outliers_bad_method_witness :
    identify_outliers dfEx "v" "median" = .error .valueError :=
  identify_outliers_bad_method dfEx "v" "median"
    [some 1, some 2, some 3, some 4, some 100] rfl (by decide) (by decide)

/-- C4 counterexample: on a table without the requested column,
`identify_outliers` does NOT fail: it returns an all-False series over the
table's rows (5 rows here), contradicting the claim that an unknown column
reference raises an InvalidArgument error. -/
theorem identify_outliers_missing_col_returns :
    identify_outliers dfEx "zzz" "iqr" = .ok [false, false, false, false, false]
      ∧ ∀ e : PyErr, identify_outliers dfEx "zzz" "iqr" ≠ .error e := by
  refine ⟨rfl, fun e h => ?_⟩
  rw [show identify_outliers dfEx "zzz" "iqr"
        = .ok [false, false, false, false, false] from rfl] at h
  exact Except.noConfusion h

/-- C4 (amended): for a column name that is absent from the table or refers
to a non-numeric column, `identify_outliers` returns an all-False outlier
series of the table's row count (no outliers reported) instead of raising. -/
theorem identify_outliers_missing_col (df : DataFrame) (column method : String)
    (h : ∀ xs, List.lookup column df ≠ some (Col.num xs)) :
    identify_outliers df column method = .ok (List.replicate (rowCount df) false) := by
  unfold identify_outliers
  cases hl : List.lookup column df with
  | none => rfl
  | some c =>
    cases c with
    | num xs => exact absurd hl (h xs)
    | obj xs => rfl
    | dt xs => rfl

/-- Witness for the amended C4 at the concrete table `dfEx` and the absent
column "zzz". -/
theorem identify_outliers_missing_col_witness :
    identify_outliers dfEx "zzz" "zscore" = .ok (List.replicate (rowCount dfEx) false) :=
  identify_outliers_missing_col dfEx "zzz" "zscore"
    (fun xs h => by rw [show List.lookup "zzz" dfEx = none from rfl] at h; exact Option.noConfusion h)

/-- C6: with method "zscore" on a numeric column whose sample standard
deviation is zero (at least two valid values, zero squared deviation), no
value is flagged: the `0/0 = NaN` z-scores compare false rather than
propagating as an all-flagged result. -/
theorem identify_outliers_zscore_zero_std (df : DataFrame) (column : String)
    (xs : List (Option ℚ)) (h : List.lookup column df = some (Col.num xs))
    (_hn : 2 ≤ (validVals xs).length) (hss : ssQ (validVals xs) = 0) :
    identify_outliers df column "zscore" = .ok (List.replicate xs.length false) := by
  unfold identify_outliers
  rw [h]
  simp only [if_neg (by decide : ¬("zscore" = "iqr")), if_pos rfl]
  refine congrArg Except.ok ?_
  unfold zscoreFlags
  refine map_eq_replicate_false _ (fun o => ?_) xs
  cases o with
  | none => rfl
  | some v => simp [hss]

/-- Witness for C6: a constant column `[1,1,1]` has zero standard deviation
and gets an all-False flag series. -/
theorem identify_outliers_zscore_zero_std_witness :
    2 ≤ (validVals [some 1, some 1, some 1]).length
      ∧ ssQ (validVals [some 1, some 1, some 1]) = 0
      ∧ identify_outliers [("a", Col.num [some 1, some 1, some 1])] "a" "zscore"
          = .ok (List.replicate 3 false) := by
  refine ⟨by decide, ?_, ?_⟩
  · norm_num [validVals, ssQ, meanQ, List.filterMap_cons, List.filterMap_nil, id]
  · exact identify_outliers_zscore_zero_std
      [("a", Col.num [some 1, some 1, some 1])] "a" [some 1, some 1, some 1] rfl (by decide)
      (by norm_num [validVals, ssQ, meanQ, List.filterMap_cons, List.filterMap_nil, id])

/-- C7: method "iqr" flags exactly the values `v` with `v < Q1 - 1.5*IQR` or
`v > Q3 + 1.5*IQR` where `IQR = Q3 - Q1` (NaN cells are never flagged), and
on the column `[1,2,3,4,100]` it flags exactly the value `100`. -/
theorem identify_outliers_iqr_rule (df : DataFrame) (column : String)
    (xs : List (Option ℚ)) (q1 q3 : ℚ)
    (h : List.lookup column df = some (Col.num xs))
    (h1 : quantileND xs 1 4 = some q1) (h3 : quantileND xs 3 4 = some q3) :
    identify_outliers df column "iqr"
        = .ok (xs.map (fun o =>
            match o with
            | none => false
            | some v =>
              decide (v < q1 - 3/2 * (q3 - q1) ∨ v > q3 + 3/2 * (q3 - q1))))
      ∧ identify_outliers dfEx "v" "iqr" = .ok [false, false, false, false, true] := by
  constructor
  · have hflag : iqrFlags xs
        = xs.map (fun o =>
            match o with
            | none => false
            | some v =>
              decide (v < q1 - 3/2 * (q3 - q1) ∨ v > q3 + 3/2 * (q3 - q1))) := by
      unfold iqrFlags
      rw [h1, h3]
    unfold identify_outliers
    rw [h]
    exact congrArg Except.ok hflag
  · norm_num [identify_outliers, dfEx, List.lookup, iqrFlags, quantileND, sortQ,
      sortLe, insertLe, validVals]

/-- Witness for C7 at the concrete table `dfEx` (Q1 = 2, Q3 = 4). -/
theorem identify_outliers_iqr_rule_witness :
    identify_outliers dfEx "v" "iqr"
        = .ok ([some 1, some 2, some 3, some 4, some (100:ℚ)].map (fun o =>
            match o with
            | none => false
            | some v =>
              decide (v < 2 - 3/2 * (4 - 2) ∨ v > 4 + 3/2 * (4 - 2)))) :=
  (identify_outliers_iqr_rule dfEx "v" [some 1, some 2, some 3, some 4, some 100]
    2 4 rfl
    (by norm_num [quantileND, sortQ, sortLe, insertLe, validVals])
    (by norm_num [quantileND, sortQ, sortLe, insertLe, validVals])).1

/-- Pairwise-complete observations of two numeric columns: the row pairs in
which both cells are non-missing (pandas correlation skips such rows
pairwise). -/
def pairedVals (xs ys : List (Option ℚ)) : List (ℚ × ℚ) :=
  (xs.zip ys).filterMap (fun p =>
    match p with
    | (some a, some b) => some (a, b)
    | _ => none)

/-- Sum of products of deviations from the means,
`Σ (a - mean(fst)) * (b - mean(snd))`: the numerator of Pearson r. -/
def covSum (ps : List (ℚ × ℚ)) : ℚ :=
  let ma := meanQ (ps.map Prod.fst)
  let mb := meanQ (ps.map Prod.snd)
  (ps.map (fun p => (p.1 - ma) * (p.2 - mb))).sum

/-- Integer part of the square root of a rational, clamped to 100 (the
arguments used below are `10000 * r^2 ≤ 10000` since `|r| ≤ 1` by
Cauchy-Schwarz). -/
def sqrtFloor100 (v : ℚ) : ℕ :=
  (List.range 101).countP (fun k : ℕ => decide ((k : ℚ) * (k : ℚ) ≤ v)) - 1

/-- Nearest integer to `√v`, ties to even: numpy/pandas `.round` uses IEEE
half-even rounding. -/
def roundHalfEvenSqrt (v : ℚ) : ℕ :=
  let a := sqrtFloor100 v
  let mid : ℚ := ((2 * a + 1 : ℕ) : ℚ) ^ 2 / 4
  if mid < v then a + 1
  else if mid = v ∧ a % 2 = 1 then a + 1
  else a

/-- One entry of `numeric_df.corr().round(2)`: Pearson
`r = covSum / sqrt(sxx * syy)` over the pairwise-complete observations,
NaN (`none`) when either column has zero squared deviation (this includes
fewer than two paired observations); then rounded half-even to 2 decimals.
The irrational `sqrt` is evaluated exactly through its square:
`|100 r| = sqrt(10000 * covSum^2 / (sxx * syy))`, with the sign of
`covSum`. -/
def corrEntry (xs ys : List (Option ℚ)) : Option ℚ :=
  let ps := pairedVals xs ys
  let sxx := ssQ (ps.map Prod.fst)
  let syy := ssQ (ps.map Prod.snd)
  let sxy := covSum ps
  if sxx = 0 ∨ syy = 0 then none
  else
    let r : ℚ := ((roundHalfEvenSqrt (10000 * sxy ^ 2 / (sxx * syy)) : ℕ) : ℚ) / 100
    some (if sxy < 0 then -r else r)

/-- The numeric columns of a DataFrame (`df.select_dtypes(include=['number'])`),
in order. -/
def numericColumns (df : DataFrame) : List (String × List (Option ℚ)) :=
  df.filterMap (fun p =>
    match p.2 with
    | Col.num xs => some (p.1, xs)
    | _ => none)

/-- `StatisticalAnalyzer.calculate_correlation_matrix(df)`
(`statistical_analyzer.py` lines 86-105): if the numeric sub-frame is empty
(no numeric columns, or no rows) return an empty DataFrame, else the square
matrix of rounded Pearson coefficients. -/
def calculate_correlation_matrix (df : DataFrame) :
    List (String × List (String × Option ℚ)) :=
  let nc := numericColumns df
  if nc = [] ∨ rowCount df = 0 then []
  else nc.map (fun p => (p.1, nc.map (fun q => (q.1, corrEntry p.2 q.2))))

/-- Pairing a column with itself keeps exactly the valid values. -/
theorem pairedVals_self (xs : List (Option ℚ)) :
    pairedVals xs xs = (validVals xs).map (fun a => (a, a)) := by
  induction xs with
  | nil => rfl
  | cons o os ih =>
    cases o with
    | none => simpa [pairedVals, validVals, List.filterMap_cons] using ih
    | some a => simpa [pairedVals, validVals, List.filterMap_cons] using ih

/-- A sum of squared deviations is nonnegative. -/
theorem ssQ_nonneg (l : List ℚ) : 0 ≤ ssQ l := by
  refine List.sum_nonneg ?_
  intro x hx
  obtain ⟨v, _, rfl⟩ := List.mem_map.mp hx
  positivity

/-- On self-pairs the deviation-product sum is the squared-deviation sum. -/
theorem covSum_diag (l : List ℚ) :
    covSum (l.map (fun a => (a, a))) = ssQ l := by
  unfold covSum ssQ
  simp only [List.map_map, Function.comp_def, List.map_id, List.map_id']
  refine congrArg List.sum (List.map_congr_left ?_)
  intro a _
  ring

/-- The clamped square-root floor of 10000 is 100. -/
theorem sqrtFloor100_10000 : sqrtFloor100 10000 = 100 := by
  unfold sqrtFloor100
  have h : (List.range 101).countP (fun k : ℕ => decide ((k : ℚ) * (k : ℚ) ≤ 10000))
      = (List.range 101).length := by
    rw [List.countP_eq_length]
    intro k hk
    rw [List.mem_range] at hk
    have hk' : (k : ℚ) ≤ 100 := by exact_mod_cast Nat.lt_succ_iff.mp hk
    have h0 : (0 : ℚ) ≤ (k : ℚ) := by positivity
    simp only [decide_eq_true_eq]
    nlinarith
  rw [h, List.length_range]

/-- Half-even rounding of the square root of 10000 is exactly 100. -/
theorem roundHalfEvenSqrt_10000 : roundHalfEvenSqrt 10000 = 100 := by
  unfold roundHalfEvenSqrt
  rw [sqrtFloor100_10000]
  norm_num

/-- Diagonal law: the rounded self-correlation of a column with non-zero
squared deviation is exactly 1. -/
theorem corrEntry_self (xs : List (Option ℚ))
    (h : ssQ (validVals xs) ≠ 0) : corrEntry xs xs = some 1 := by
  unfold corrEntry
  rw [pairedVals_self]
  simp only [List.map_map, Function.comp_def, List.map_id, List.map_id']
  rw [covSum_diag]
  have hv : 10000 * ssQ (validVals xs) ^ 2
      / (ssQ (validVals xs) * ssQ (validVals xs)) = 10000 := by
    field_simp
    ring
  rw [if_neg (by simp [h]), hv, roundHalfEvenSqrt_10000]
  have hpos : 0 < ssQ (validVals xs) := lt_of_le_of_ne (ssQ_nonneg _) (Ne.symm h)
  rw [if_neg (not_lt.mpr (le_of_lt hpos))]
  norm_num

/-- Unfolding lemma: pairing two columns with non-missing heads. -/
theorem pairedVals_cons_ss (a b : ℚ) (os1 os2 : List (Option ℚ)) :
    pairedVals (some a :: os1) (some b :: os2) = (a, b) :: pairedVals os1 os2 := rfl

/-- Unfolding lemma: a missing left head contributes no pair. -/
theorem pairedVals_cons_nl (o : Option ℚ) (os1 os2 : List (Option ℚ)) :
    pairedVals (none :: os1) (o :: os2) = pairedVals os1 os2 := by
  cases o <;> rfl

/-- Unfolding lemma: a missing right head contributes no pair. -/
theorem pairedVals_cons_nr (a : ℚ) (os1 os2 : List (Option ℚ)) :
    pairedVals (some a :: os1) (none :: os2) = pairedVals os1 os2 := rfl

/-- Swapping the two columns swaps each retained pair. -/
theorem pairedVals_swap (xs ys : List (Option ℚ)) :
    pairedVals ys xs = (pairedVals xs ys).map (fun p => (p.2, p.1)) := by
  induction xs generalizing ys with
  | nil => cases ys <;> rfl
  | cons o os ih =>
    cases ys with
    | nil => rfl
    | cons o2 os2 =>
      cases o with
      | none =>
        cases o2 with
        | none => rw [pairedVals_cons_nl, pairedVals_cons_nl, ih os2]
        | some b => rw [pairedVals_cons_nr, pairedVals_cons_nl, ih os2]
      | some a =>
        cases o2 with
        | none => rw [pairedVals_cons_nl, pairedVals_cons_nr, ih os2]
        | some b =>
          rw [pairedVals_cons_ss, pairedVals_cons_ss, ih os2, List.map_cons]

/-- The deviation-product sum is symmetric under swapping. -/
theorem covSum_swap (ps : List (ℚ × ℚ)) :
    covSum (ps.map (fun p => (p.2, p.1))) = covSum ps := by
  unfold covSum
  simp only [List.map_map, Function.comp_def]
  refine congrArg List.sum (List.map_congr_left ?_)
  intro p _
  ring

/-- Pearson correlation entries are symmetric. -/
theorem corrEntry_symm (xs ys : List (Option ℚ)) :
    corrEntry xs ys = corrEntry ys xs := by
  have e1 : (pairedVals ys xs).map Prod.fst = (pairedVals xs ys).map Prod.snd := by
    rw [pairedVals_swap]
    simp [List.map_map, Function.comp_def]
  have e2 : (pairedVals ys xs).map Prod.snd = (pairedVals xs ys).map Prod.fst := by
    rw [pairedVals_swap]
    simp [List.map_map, Function.comp_def]
  have e3 : covSum (pairedVals ys xs) = covSum (pairedVals xs ys) := by
    rw [pairedVals_swap, covSum_swap]
  simp only [corrEntry]
  rw [e1, e2, e3]
  by_cases h : ssQ ((pairedVals xs ys).map Prod.fst) = 0
    ∨ ssQ ((pairedVals xs ys).map Prod.snd) = 0
  · rw [if_pos h, if_pos h.symm]
  · have hs : ¬(ssQ ((pairedVals xs ys).map Prod.snd) = 0
        ∨ ssQ ((pairedVals xs ys).map Prod.fst) = 0) := fun hc => h hc.symm
    rw [if_neg h, if_neg hs,
      mul_comm (ssQ ((pairedVals xs ys).map Prod.snd))]

/-- Example table with two numeric columns. -/
def dfTwoNum : DataFrame :=
  [("a", Col.num [some 1, some 2]), ("b", Col.num [some 2, some 1])]

/-- Example table with exactly one numeric column. -/
def dfOneNum : DataFrame := [("a", Col.num [some 1, some 2])]

/-- C8 counterexample: a table with exactly ONE numeric column (fewer than
2) yields a non-empty 1x1 correlation matrix, refuting the claim that the
matrix is empty/absent whenever fewer than 2 numeric columns exist:
`DataFrame.corr()` only returns the empty frame when the numeric sub-frame
itself is empty (no numeric columns or no rows). -/
theorem calculate_correlation_matrix_single_col :
    (numericColumns dfOneNum).length = 1
      ∧ calculate_correlation_matrix dfOneNum ≠ [] := by
  constructor
  · rfl
  · intro h
    rw [show calculate_correlation_matrix dfOneNum
        = [("a", [("a", corrEntry [some 1, some 2] [some 1, some 2])])] from rfl] at h
    exact List.noConfusion h

/-- C8 (amended): `calculate_correlation_matrix` returns the empty matrix
exactly when the table has zero numeric columns or zero rows (never
failing); otherwise it returns the square matrix whose `(i,j)` entry is the
rounded Pearson coefficient of numeric columns `i` and `j`, which is
symmetric, and the diagonal entry of every numeric column with non-zero
variance is 1.0. (With exactly one numeric column the result is a 1x1
matrix, not an empty one.) -/
theorem calculate_correlation_matrix_props (df : DataFrame) :
    (calculate_correlation_matrix df = []
        ↔ (numericColumns df = [] ∨ rowCount df = 0))
    ∧ (∀ xs ys : List (Option ℚ), corrEntry xs ys = corrEntry ys xs)
    ∧ (∀ i j : ℕ, ∀ p q : String × List (Option ℚ),
        (numericColumns df)[i]? = some p → (numericColumns df)[j]? = some q →
        calculate_correlation_matrix df ≠ [] →
        ∃ row, (calculate_correlation_matrix df)[i]? = some (p.1, row)
          ∧ row[j]? = some (q.1, corrEntry p.2 q.2))
    ∧ (∀ xs : List (Option ℚ), ssQ (validVals xs) ≠ 0 → corrEntry xs xs = some 1) := by
  refine ⟨?_, corrEntry_symm, ?_, corrEntry_self⟩
  · unfold calculate_correlation_matrix
    by_cases h : numericColumns df = [] ∨ rowCount df = 0
    · rw [if_pos h]
      simp [h]
    · rw [if_neg h]
      simp only [List.map_eq_nil_iff]
      constructor
      · intro hnil
        exact absurd (Or.inl hnil) h
      · intro hc
        exact absurd hc h
  · intro i j p q hi hj hne
    unfold calculate_correlation_matrix at hne ⊢
    by_cases h : numericColumns df = [] ∨ rowCount df = 0
    · exact absurd (if_pos h) hne
    · rw [if_neg h]
      refine ⟨(numericColumns df).map (fun q2 => (q2.1, corrEntry p.2 q2.2)), ?_, ?_⟩
      · rw [List.getElem?_map, hi]
        rfl
      · rw [List.getElem?_map, hj]
        rfl

/-- Witness for the amended C8 on a concrete two-numeric-column table:
entry (0,1) exists and the diagonal entry of column `a` (variance 1/2) is
1.0. -/
theorem calculate_correlation_matrix_props_witness :
    (∃ row, (calculate_correlation_matrix dfTwoNum)[0]? = some ("a", row)
        ∧ row[1]? = some ("b", corrEntry [some 1, some 2] [some 2, some 1]))
      ∧ corrEntry [some 1, some 2] [some 1, some 2] = some 1 := by
  refine ⟨(calculate_correlation_matrix_props dfTwoNum).2.2.1 0 1
      ("a", [some 1, some 2]) ("b", [some 2, some 1]) rfl rfl ?_,
    (calculate_correlation_matrix_props dfTwoNum).2.2.2 [some 1, some 2] ?_⟩
  · intro h
    exact ((calculate_correlation_matrix_props dfTwoNum).1.mp h).elim
      (fun hnc => List.noConfusion hnc) (fun hrc => Nat.noConfusion hrc)
  · norm_num [validVals, ssQ, meanQ, List.filterMap_cons, List.filterMap_nil, id]

/-- `interpret_correlation(corr)` (`app.py` lines 1527-1533): label the
strength of a correlation coefficient. -/
def interpret_correlation (corr : ℚ) : String :=
  if |corr| < 3/10 then "weak correlation"
  else if |corr| < 7/10 then "moderate correlation"
  else "strong correlation"

/-- Descending-absolute-correlation ordering on named column pairs. -/
def corrDescLe (a b : String × String × ℚ) : Bool := decide (|b.2.2| ≤ |a.2.2|)

/-- The correlation-insight selection of `update_insights`
(`app.py` lines 1440-1457): the upper-triangle pairs of the correlation
matrix are sorted stably by descending absolute coefficient (Python
`list.sort` with `key=abs(...)`, `reverse=True`) and the first five are
emitted. -/
def topCorrelations (pairs : List (String × String × ℚ)) :
    List (String × String × ℚ) :=
  (sortLe corrDescLe pairs).take 5

/-- Insertion keeps the multiset of elements. -/
theorem insertLe_perm {α : Type} (le : α → α → Bool) (a : α) (l : List α) :
    (insertLe le a l).Perm (a :: l) := by
  induction l with
  | nil => exact List.Perm.refl _
  | cons b bs ih =>
    unfold insertLe
    by_cases h : le a b = true
    · rw [if_pos h]
    · rw [if_neg h]
      exact (ih.cons b).trans (List.Perm.swap a b bs)

/-- The insertion sort is a permutation of its input. -/
theorem sortLe_perm {α : Type} (le : α → α → Bool) (l : List α) :
    (sortLe le l).Perm l := by
  induction l with
  | nil => exact List.Perm.refl _
  | cons a as ih =>
    exact (insertLe_perm le a (sortLe le as)).trans (ih.cons a)

/-- Insertion into a sorted list keeps it sorted, for a total transitive
Boolean order. -/
theorem insertLe_pairwise {α : Type} (le : α → α → Bool)
    (htot : ∀ a b, le a b = true ∨ le b a = true)
    (htrans : ∀ a b c, le a b = true → le b c = true → le a c = true)
    (a : α) (l : List α) (hl : l.Pairwise (fun x y => le x y = true)) :
    (insertLe le a l).Pairwise (fun x y => le x y = true) := by
  induction l with
  | nil => exact List.pairwise_singleton _ a
  | cons b bs ih =>
    rw [List.pairwise_cons] at hl
    obtain ⟨hb, hbs⟩ := hl
    unfold insertLe
    by_cases h : le a b = true
    · rw [if_pos h]
      refine List.Pairwise.cons ?_ (List.Pairwise.cons hb hbs)
      intro x hx
      rcases List.mem_cons.mp hx with rfl | hx
      · exact h
      · exact htrans a b x h (hb x hx)
    · rw [if_neg h]
      have hba : le b a = true := (htot a b).resolve_left h
      refine List.Pairwise.cons ?_ (ih hbs)
      intro x hx
      have hx2 : x ∈ a :: bs := (insertLe_perm le a bs).mem_iff.mp hx
      rcases List.mem_cons.mp hx2 with rfl | hx2
      · exact hba
      · exact hb x hx2

/-- The insertion sort sorts, for a total transitive Boolean order. -/
theorem sortLe_pairwise {α : Type} (le : α → α → Bool)
    (htot : ∀ a b, le a b = true ∨ le b a = true)
    (htrans : ∀ a b c, le a b = true → le b c = true → le a c = true)
    (l : List α) :
    (sortLe le l).Pairwise (fun x y => le x y = true) := by
  induction l with
  | nil => exact List.Pairwise.nil
  | cons a as ih => exact insertLe_pairwise le htot htrans a _ ih

/-- C9: the insight label is "weak" for `|r| < 0.3`, "moderate" for
`0.3 <= |r| < 0.7` and "strong" for `|r| >= 0.7` (so exactly 0.3 is
moderate and exactly 0.7 is strong), and the correlation finding emits the
top 5 column pairs by descending absolute correlation: `topCorrelations`
takes the first 5 of a stable descending sort of the pairs, so it has
`min 5 n` entries, is descending in absolute value, and every emitted pair
has absolute correlation at least that of every pair left out. -/
theorem interpret_correlation_c9 :
    (∀ r : ℚ, |r| < 3/10 → interpret_correlation r = "weak correlation")
    ∧ (∀ r : ℚ, 3/10 ≤ |r| → |r| < 7/10 →
        interpret_correlation r = "moderate correlation")
    ∧ (∀ r : ℚ, 7/10 ≤ |r| → interpret_correlation r = "strong correlation")
    ∧ (∀ pairs : List (String × String × ℚ),
        (sortLe corrDescLe pairs).Perm pairs
        ∧ topCorrelations pairs = (sortLe corrDescLe pairs).take 5
        ∧ (topCorrelations pairs).length = min 5 pairs.length
        ∧ List.Pairwise (fun a b => |b.2.2| ≤ |a.2.2|) (sortLe corrDescLe pairs)
        ∧ ∀ x ∈ topCorrelations pairs, ∀ y ∈ (sortLe corrDescLe pairs).drop 5,
            |y.2.2| ≤ |x.2.2|) := by
  refine ⟨?_, ?_, ?_, ?_⟩
  · intro r h
    unfold interpret_correlation
    rw [if_pos h]
  · intro r h1 h2
    unfold interpret_correlation
    rw [if_neg (not_lt.mpr h1), if_pos h2]
  · intro r h
    unfold interpret_correlation
    rw [if_neg (not_lt.mpr (le_trans (by norm_num) h)), if_neg (not_lt.mpr h)]
  · intro pairs
    have hperm := sortLe_perm corrDescLe pairs
    have hpw : (sortLe corrDescLe pairs).Pairwise (fun a b => |b.2.2| ≤ |a.2.2|) := by
      refine List.Pairwise.imp ?_
        (sortLe_pairwise corrDescLe ?_ ?_ pairs)
      · intro a b hab
        exact of_decide_eq_true hab
      · intro a b
        rcases le_total |b.2.2| |a.2.2| with h | h
        · exact Or.inl (decide_eq_true h)
        · exact Or.inr (decide_eq_true h)
      · intro a b c hab hbc
        exact decide_eq_true (le_trans (of_decide_eq_true hbc) (of_decide_eq_true hab))
    refine ⟨hperm, rfl, ?_, hpw, ?_⟩
    · rw [topCorrelations, List.length_take, hperm.length_eq]
    · intro x hx y hy
      have hsplit : List.Pairwise (fun a b => |b.2.2| ≤ |a.2.2|)
          (List.take 5 (sortLe corrDescLe pairs)
            ++ List.drop 5 (sortLe corrDescLe pairs)) := by
        rw [List.take_append_drop]
        exact hpw
      exact (List.pairwise_append.mp hsplit).2.2 x hx y hy

/-- Witness for C9 at the boundary coefficients 0.3, 0.7 and at 0.1. -/
theorem interpret_correlation_c9_witness :
    interpret_correlation (3/10) = "moderate correlation"
      ∧ interpret_correlation (7/10) = "strong correlation"
      ∧ interpret_correlation (1/10) = "weak correlation" :=
  ⟨interpret_correlation_c9.2.1 (3/10)
      (by rw [abs_of_nonneg (by norm_num : (0:ℚ) ≤ 3/10)])
      (by rw [abs_of_nonneg (by norm_num : (0:ℚ) ≤ 3/10)] ; norm_num),
   interpret_correlation_c9.2.2.1 (7/10)
      (by rw [abs_of_nonneg (by norm_num : (0:ℚ) ≤ 7/10)]),
   interpret_correlation_c9.1 (1/10)
      (by rw [abs_of_nonneg (by norm_num : (0:ℚ) ≤ 1/10)] ; norm_num)⟩

/-- Lower-case an ASCII letter (`.str.lower()` acts per character). -/
def lowerChar (c : Char) : Char :=
  if 'A' ≤ c ∧ c ≤ 'Z' then Char.ofNat (c.toNat + 32) else c

/-- `.str.lower()` of one cell. -/
def pyLower (s : String) : String := String.mk (s.data.map lowerChar)

/-- Whitespace stripped by `.str.strip()` (the common ASCII whitespace). -/
def isPySpace (c : Char) : Bool :=
  c = ' ' ∨ c = '\t' ∨ c = '\n' ∨ c = '\r'

/-- `.str.strip()` of one cell: drop leading and trailing whitespace. -/
def pyStrip (s : String) : String :=
  String.mk (((s.data.dropWhile isPySpace).reverse.dropWhile isPySpace).reverse)

/-- Value of a digit run (only applied to all-digit runs). -/
def digitsValD (cs : List Char) : ℕ :=
  cs.foldl (fun acc c => 10 * acc + (c.toNat - 48)) 0

/-- Body of `pd.to_numeric(errors='coerce')` on a string after the optional
sign: digits with at most one decimal point, at least one digit in total. -/
def parseNumCore (cs : List Char) : Option ℚ :=
  match cs.drop ((cs.takeWhile Char.isDigit).length) with
  | [] =>
    if cs.takeWhile Char.isDigit = [] then none
    else some ((digitsValD (cs.takeWhile Char.isDigit) : ℚ))
  | c :: frac =>
    if c = '.' ∧ frac.all Char.isDigit
        ∧ ¬(cs.takeWhile Char.isDigit = [] ∧ frac = []) then
      some ((digitsValD (cs.takeWhile Char.isDigit) : ℚ)
        + (digitsValD frac : ℚ) / (10 : ℚ) ^ frac.length)
    else none

/-- `pd.to_numeric(errors='coerce')` on one string cell: an optional sign
followed by a decimal literal; anything else coerces to NaN (`none`). -/
def parseNum (s : String) : Option ℚ :=
  match s.data with
  | [] => none
  | c :: cs =>
    if c = '-' then Option.map (fun q => -q) (parseNumCore cs)
    else if c = '+' then parseNumCore cs
    else parseNumCore (c :: cs)

/-- The external pandas datetime routines, abstracted: `parse` is
`pd.to_datetime(errors='coerce')` on one string (`none` = NaT) and `print`
is `str` of a Timestamp.  Timestamps themselves are abstracted as naturals. -/
structure DateCodec where
  parse : String → Option ℕ
  print : ℕ → String

/-- The laws pandas guarantees for the datetime routines: printing a
timestamp yields a string that parses back to it, is not numeric, and is
already stripped and lower-case (`str(Timestamp)` is digits, dashes,
colons and inner spaces); the literals NaT/nat/empty/nan coerce to NaT. -/
structure GoodCodec (D : DateCodec) : Prop where
  roundtrip : ∀ t, D.parse (D.print t) = some t
  printNotNum : ∀ t, parseNum (D.print t) = none
  parseNaT : D.parse "NaT" = none
  parseNatLower : D.parse "nat" = none
  parseEmpty : D.parse "" = none
  parseNanStr : D.parse "nan" = none
  printStrip : ∀ t, pyStrip (D.print t) = D.print t
  printLower : ∀ t, pyLower (D.print t) = D.print t

/-- `str` of one datetime cell (`astype(str)` on a datetime column): NaT
prints as the literal string "NaT". -/
def dtStr (D : DateCodec) (o : Option ℕ) : String :=
  match o with
  | none => "NaT"
  | some t => D.print t

/-- A cell of any column type, for row comparisons in `drop_duplicates`
(pandas treats two NaN cells as equal there). -/
inductive Cell where
  | q (v : Option ℚ)
  | s (v : Option String)
  | t (v : Option ℕ)
deriving DecidableEq, Repr

/-- Cell `i` of a column. -/
def cellAt (c : Col) (i : ℕ) : Cell :=
  match c with
  | Col.num xs => Cell.q (xs.getD i none)
  | Col.obj xs => Cell.s (xs.getD i none)
  | Col.dt xs => Cell.t (xs.getD i none)

/-- Row `i` of a DataFrame. -/
def rowAt (df : DataFrame) (i : ℕ) : List Cell :=
  df.map (fun p => cellAt p.2 i)

/-- All rows of a DataFrame, in order. -/
def rowsOf (df : DataFrame) : List (List Cell) :=
  (List.range (rowCount df)).map (rowAt df)

/-- Row indices kept by `df.drop_duplicates()` (`data_processor.py` line
40): the first occurrence of each distinct row, in original order. -/
def keptIndices (df : DataFrame) : List ℕ :=
  (List.range (rowCount df)).filter
    (fun i => decide (∀ j ∈ List.range i, rowAt df j ≠ rowAt df i))

/-- Restrict a list to the given indices, in order. -/
def selectIdx {α : Type} (xs : List α) (d : α) (idxs : List ℕ) : List α :=
  idxs.map (fun i => xs.getD i d)

/-- Restrict a column to the given row indices. -/
def selectCol (idxs : List ℕ) : Col → Col
  | Col.num xs => Col.num (selectIdx xs none idxs)
  | Col.obj xs => Col.obj (selectIdx xs none idxs)
  | Col.dt xs => Col.dt (selectIdx xs none idxs)

/-- `DataProcessor._remove_duplicates` = `df.drop_duplicates()`: keep the
first occurrence of each distinct row, preserving order. -/
def drop_duplicates (df : DataFrame) : DataFrame :=
  df.map (fun p => (p.1, selectCol (keptIndices df) p.2))

/-- `astype(str)` of an object column: a NaN float prints as "nan". -/
def objAstype (xs : List (Option String)) : List (Option String) :=
  xs.map (fun o => some (o.getD "nan"))

/-- `astype(str)` of a datetime column: NaT prints as "NaT". -/
def dtAstype (D : DateCodec) (xs : List (Option ℕ)) : List (Option String) :=
  xs.map (fun o => some (dtStr D o))

/-- `replace('', nan)` then `replace('nan', nan)`
(`data_processor.py` lines 62-64). -/
def replaceEmptyNan (xs : List (Option String)) : List (Option String) :=
  xs.map (fun o => if o = some "" ∨ o = some "nan" then none else o)

/-- The non-missing values of an object column. -/
def validStr (xs : List (Option String)) : List String := xs.filterMap id

/-- Lexicographic comparison of character lists by code point. -/
def charListLt : List Char → List Char → Bool
  | [], [] => false
  | [], _ :: _ => true
  | _ :: _, [] => false
  | a :: as, b :: bs =>
    if a.toNat < b.toNat then true
    else if b.toNat < a.toNat then false
    else charListLt as bs

/-- Lexicographic string comparison by code point (numpy's ordering of
strings). -/
def strLtB (a b : String) : Bool := charListLt a.data b.data

/-- Most frequent value, ties broken by the smallest string (sklearn
`SimpleImputer(strategy='most_frequent')` via `scipy.stats.mode`). -/
def modeMin (l : List String) : String :=
  l.foldl (fun acc c =>
    if l.count c > l.count acc ∨ (l.count c = l.count acc ∧ strLtB c acc = true)
    then c else acc) (l.headD "")

/-- Mean imputation of a numeric column (fit and transform on the same
batch, as `fit_transform` does). -/
def imputeNum (xs : List (Option ℚ)) : List (Option ℚ) :=
  xs.map (fun o => some (o.getD (meanQ (validVals xs))))

/-- Most-frequent imputation of an object column (fit and transform on the
same batch). -/
def imputeStr (xs : List (Option String)) : List (Option String) :=
  xs.map (fun o => some (o.getD (modeMin (validStr xs))))

/-- `SimpleImputer.fit_transform` drops a column whose values are all
missing, so the assignment back into the DataFrame raises (also on zero
rows): the abort condition of `_handle_missing_values` per column. -/
def imputerAborts (D : DateCodec) : Col → Bool
  | Col.num xs => decide (validVals xs = [])
  | Col.obj xs => decide (validStr (replaceEmptyNan (objAstype xs)) = [])
  | Col.dt xs => decide (validStr (replaceEmptyNan (dtAstype D xs)) = [])

/-- `_handle_missing_values` per column (`data_processor.py` lines 42-69):
numeric columns are mean-imputed; every non-numeric column (object or
datetime) is converted to strings, has "" and "nan" replaced by NaN, and is
most-frequent-imputed, ending up as an object column. -/
def hmCol (D : DateCodec) : Col → Col
  | Col.num xs => Col.num (imputeNum xs)
  | Col.obj xs => Col.obj (imputeStr (replaceEmptyNan (objAstype xs)))
  | Col.dt xs => Col.obj (imputeStr (replaceEmptyNan (dtAstype D xs)))

/-- `_handle_missing_values` on the whole DataFrame: `none` models the
ValueError raised when `fit_transform` output cannot be assigned back
(some column all-missing, or zero rows with at least one column). -/
def handle_missing_values (D : DateCodec) (df : DataFrame) : Option DataFrame :=
  if df.any (fun p => imputerAborts D p.2) then none
  else some (df.map (fun p => (p.1, hmCol D p.2)))

/-- `pd.to_datetime(df[col], errors='coerce')` on an object column. -/
def coerceDates (D : DateCodec) (xs : List (Option String)) : List (Option ℕ) :=
  xs.map (fun o => o.bind D.parse)

/-- Count of non-NaT cells (`notna().sum()` of the coerced column). -/
def dtCount (xs : List (Option ℕ)) : ℕ := xs.countP (fun o => o.isSome)

/-- The revert `df[col] = df[col].astype(str)` (`data_processor.py` line
87) stringifies the COERCED column, not the original one: values that
failed to parse have become the literal "NaT" and parsed values print as
timestamp strings (the original strings are lost). -/
def stringifyCoerced (D : DateCodec) (xs : List (Option String)) : List String :=
  (coerceDates D xs).map (dtStr D)

/-- `notna().sum()` of `pd.to_numeric` applied to the stringified column. -/
def numCount (ss : List String) : ℕ :=
  (ss.map parseNum).countP (fun o => o.isSome)

/-- `_standardize_formats` per column (`data_processor.py` lines 71-102).
Only object columns are touched.  The datetime attempt keeps the coerced
column when the parsed fraction is at least 0.7 (the code reverts when
`notna/len < 0.7`, so exactly 0.7 keeps datetime; on zero rows the float
quotient is NaN and `NaN < 0.7` is false, so the coerced column is also
kept); fractions are compared exactly (`10*k < 7*n` iff `k/n < 0.7`).
Otherwise the column is re-stringified from the coerced values, converted
to numeric only when strictly more than 70% of THOSE strings parse as
numbers, else stripped and lower-cased. -/
def stdCol (D : DateCodec) (n : ℕ) : Col → Col
  | Col.obj xs =>
    if n ≠ 0 ∧ 10 * dtCount (coerceDates D xs) < 7 * n then
      if n ≠ 0 ∧ 7 * n < 10 * numCount (stringifyCoerced D xs) then
        Col.num ((stringifyCoerced D xs).map parseNum)
      else
        Col.obj ((stringifyCoerced D xs).map (fun s => some (pyLower (pyStrip s))))
    else Col.dt (coerceDates D xs)
  | Col.num xs => Col.num xs
  | Col.dt xs => Col.dt xs

/-- `DataProcessor._standardize_formats` over the DataFrame. -/
def standardize_formats (D : DateCodec) (df : DataFrame) : DataFrame :=
  df.map (fun p => (p.1, stdCol D (rowCount df) p.2))

/-- `DataProcessor.process_data` (`data_processor.py` lines 18-36):
deduplicate, impute missing values, standardize formats, on a copy of the
input (the input itself is never mutated). -/
def process_data (D : DateCodec) (df : DataFrame) : Option DataFrame :=
  Option.map (standardize_formats D) (handle_missing_values D (drop_duplicates df))

/-- A concrete date codec for witnesses: the timestamp `t` prints as `t+1`
copies of the character at-sign, and exactly such strings parse back. -/
def atParse (s : String) : Option ℕ :=
  if s.data ≠ [] ∧ s.data.all (fun c => c = '@') then some (s.data.length - 1)
  else none

/-- Witness codec built from `atParse`. -/
def Dwit : DateCodec := ⟨atParse, fun t => String.mk (List.replicate (t + 1) '@')⟩

/-- At-signs are not whitespace, so stripping leaves them alone. -/
theorem dropWhile_replicate_at (m : ℕ) :
    List.dropWhile isPySpace (List.replicate m '@') = List.replicate m '@' := by
  cases m with
  | zero => rfl
  | succ k =>
    rw [List.replicate_succ, List.dropWhile_cons]
    simp [isPySpace]

/-- The witness codec satisfies the pandas laws. -/
theorem goodDwit : GoodCodec Dwit := by
  refine ⟨?_, ?_, rfl, rfl, rfl, rfl, ?_, ?_⟩
  · intro t
    show atParse (String.mk (List.replicate (t + 1) '@')) = some t
    unfold atParse
    simp
  · intro t
    show parseNum (String.mk (List.replicate (t + 1) '@')) = none
    unfold parseNum
    simp only [List.replicate_succ]
    show (if '@' = '-' then _ else if '@' = '+' then _ else
      parseNumCore ('@' :: List.replicate t '@')) = none
    rw [if_neg (by decide), if_neg (by decide)]
    unfold parseNumCore
    rw [List.takeWhile_cons]
    simp only [show '@'.isDigit = false from rfl]
    simp
  · intro t
    show pyStrip (String.mk (List.replicate (t + 1) '@')) = _
    unfold pyStrip
    simp only [dropWhile_replicate_at, List.reverse_replicate]
    rfl
  · intro t
    show pyLower (String.mk (List.replicate (t + 1) '@')) = _
    unfold pyLower
    simp only [List.map_replicate]
    rfl

/-- The fitted state of the two `SimpleImputer`s held by a `DataProcessor`
instance (`data_processor.py` lines 12-16): per-column statistics of the
last fit (means of the numeric columns, modes of the converted non-numeric
columns). -/
structure DPState where
  numericStats : List ℚ
  categoricalStats : List String
deriving DecidableEq

/-- The `fit` half of `fit_transform`: fresh imputer statistics from the
current batch. -/
def fitStats (D : DateCodec) : DataFrame → List ℚ × List String
  | [] => ([], [])
  | (_, Col.num xs) :: rest =>
      (meanQ (validVals xs) :: (fitStats D rest).1, (fitStats D rest).2)
  | (_, Col.obj xs) :: rest =>
      ((fitStats D rest).1,
        modeMin (validStr (replaceEmptyNan (objAstype xs))) :: (fitStats D rest).2)
  | (_, Col.dt xs) :: rest =>
      ((fitStats D rest).1,
        modeMin (validStr (replaceEmptyNan (dtAstype D xs))) :: (fitStats D rest).2)

/-- The `transform` half of `fit_transform`: fill missing values from the
fitted statistics, positionally per column kind. -/
def applyStats (D : DateCodec) (ns : List ℚ) (cs : List String) :
    DataFrame → DataFrame
  | [] => []
  | (nm, Col.num xs) :: rest =>
      (nm, Col.num (xs.map (fun o => some (o.getD (ns.headD 0)))))
        :: applyStats D ns.tail cs rest
  | (nm, Col.obj xs) :: rest =>
      (nm, Col.obj ((replaceEmptyNan (objAstype xs)).map
          (fun o => some (o.getD (cs.headD "")))))
        :: applyStats D ns cs.tail rest
  | (nm, Col.dt xs) :: rest =>
      (nm, Col.obj ((replaceEmptyNan (dtAstype D xs)).map
          (fun o => some (o.getD (cs.headD "")))))
        :: applyStats D ns cs.tail rest

/-- `process_data` as it runs on a `DataProcessor` instance: the imputers
are instance state, but `fit_transform` refits them from the current batch
before transforming, so the incoming state is never read. -/
def process_data_stateful (D : DateCodec) (_st : DPState) (df : DataFrame) :
    Option (DataFrame × DPState) :=
  if (drop_duplicates df).any (fun p => imputerAborts D p.2) then none
  else
    some (standardize_formats D
        (applyStats D (fitStats D (drop_duplicates df)).1
          (fitStats D (drop_duplicates df)).2 (drop_duplicates df)),
      ⟨(fitStats D (drop_duplicates df)).1, (fitStats D (drop_duplicates df)).2⟩)

/-- Transforming with freshly fitted statistics is exactly the per-column
imputation of `_handle_missing_values`. -/
theorem applyStats_fitStats (D : DateCodec) (d : DataFrame) :
    applyStats D (fitStats D d).1 (fitStats D d).2 d
      = d.map (fun p => (p.1, hmCol D p.2)) := by
  induction d with
  | nil => rfl
  | cons p rest ih =>
    obtain ⟨nm, c⟩ := p
    cases c with
    | num xs => simpa [fitStats, applyStats, hmCol, imputeNum] using ih
    | obj xs => simpa [fitStats, applyStats, hmCol, imputeStr] using ih
    | dt xs => simpa [fitStats, applyStats, hmCol, imputeStr] using ih

/-- C10: `process_data` is deterministic and free of cross-call coupling:
its result does not depend on the imputer state the `DataProcessor`
instance carries into the call (the imputers are refitted from the current
batch by `fit_transform`), and the stateful run computes exactly the
stateless `process_data` of the input. -/
theorem process_data_state_independent (D : DateCodec) (s1 s2 : DPState)
    (df : DataFrame) :
    process_data_stateful D s1 df = process_data_stateful D s2 df
      ∧ Option.map Prod.fst (process_data_stateful D s1 df) = process_data D df := by
  refine ⟨rfl, ?_⟩
  unfold process_data_stateful process_data handle_missing_values
  by_cases h : (drop_duplicates df).any (fun p => imputerAborts D p.2) = true
  · rw [if_pos h, if_pos h]
    rfl
  · rw [if_neg h, if_neg h, applyStats_fitStats]
    rfl

/-- The canonical string a datetime-coerced cell ends up as after the
strip/lower-case step: NaT becomes the literal "nat", a parsed timestamp
keeps its (already stripped, lower-case) printed form. -/
def stringRepr (D : DateCodec) : Option ℕ → Option String
  | none => some "nat"
  | some t => some (D.print t)

/-- None of the re-stringified datetime-coerced values parses as a number:
"NaT" does not, and a printed timestamp does not by the codec laws. -/
theorem numCount_stringifyCoerced (D : DateCodec) (hD : GoodCodec D)
    (xs : List (Option String)) : numCount (stringifyCoerced D xs) = 0 := by
  rw [numCount, List.countP_eq_zero]
  intro o ho
  obtain ⟨s, hs, rfl⟩ := List.mem_map.mp ho
  obtain ⟨od, _, rfl⟩ := List.mem_map.mp hs
  cases od with
  | none =>
    rw [show dtStr D none = "NaT" from rfl]
    decide
  | some t => simp [dtStr, hD.printNotNum t]

/-- Strip-then-lower sends each re-stringified coerced value to its
canonical form. -/
theorem stringify_lower_strip (D : DateCodec) (hD : GoodCodec D)
    (xs : List (Option String)) :
    (stringifyCoerced D xs).map (fun s => some (pyLower (pyStrip s)))
      = (coerceDates D xs).map (stringRepr D) := by
  rw [stringifyCoerced, List.map_map]
  refine List.map_congr_left ?_
  intro o _
  cases o with
  | none => rfl
  | some t => simp [Function.comp, dtStr, stringRepr, hD.printStrip t, hD.printLower t]

/-- C5 (amended): `_standardize_formats` checks datetime before numeric and
keeps the coerced datetime column for a parsed fraction of at least 0.70
(the code reverts only when `notna/len < 0.7`, so exactly 0.70 stays
Datetime — inclusive); but the numeric conversion applies a strict `> 0.7`
test, and applies it to the re-stringified datetime-coerced values (line 87
stringifies the coerced column), none of which parses as a number, so every
column that fails the datetime check degrades to a Categorical (object)
column of canonical strings — in particular a column whose numeric-parse
fraction is exactly 0.70 is NOT classified Numeric. -/
theorem stdCol_thresholds (D : DateCodec) (hD : GoodCodec D) (n : ℕ)
    (xs : List (Option String)) (hn : n ≠ 0) :
    (7 * n ≤ 10 * dtCount (coerceDates D xs) →
      stdCol D n (Col.obj xs) = Col.dt (coerceDates D xs))
    ∧ (10 * dtCount (coerceDates D xs) < 7 * n →
      stdCol D n (Col.obj xs) = Col.obj ((coerceDates D xs).map (stringRepr D))) := by
  constructor
  · intro h
    simp only [stdCol]
    rw [if_neg]
    intro hc
    omega
  · intro h
    simp only [stdCol]
    rw [if_pos ⟨hn, h⟩, if_neg, stringify_lower_strip D hD]
    rw [numCount_stringifyCoerced D hD]
    intro hc
    omega

/-- The concrete column of the C5 counterexample: seven numeric strings and
three non-numeric ones (numeric-parse fraction exactly 0.70). -/
def c5cells : List (Option String) :=
  [some "1", some "2", some "3", some "4", some "5",
   some "6", some "7", some "a", some "b", some "c"]

/-- C5 counterexample: a 10-cell column whose numeric-parse fraction is
exactly 0.70 is NOT classified Numeric by `_standardize_formats` — the
datetime coercion destroys the original strings first and the numeric test
is strict, so the column comes out Categorical (all cells the literal
"nat"). -/
theorem stdCol_exact_seventy_not_numeric :
    (c5cells.countP (fun o => (o.bind parseNum).isSome) = 7
      ∧ c5cells.length = 10)
    ∧ stdCol Dwit 10 (Col.obj c5cells) = Col.obj (List.replicate 10 (some "nat"))
    ∧ ∀ ys, stdCol Dwit 10 (Col.obj c5cells) ≠ Col.num ys := by
  refine ⟨by decide, by decide, ?_⟩
  intro ys h
  rw [show stdCol Dwit 10 (Col.obj c5cells)
      = Col.obj (List.replicate 10 (some "nat")) from by decide] at h
  exact Col.noConfusion h

/-- The concrete column of the C5 witness: seven date strings (at-signs
parse as dates under the witness codec) and three non-dates, datetime
fraction exactly 0.70. -/
def c5dates : List (Option String) :=
  [some "@", some "@@", some "@@@", some "@@@@", some "@@@@@",
   some "@@@@@@", some "@@@@@@@", some "a", some "b", some "c"]

/-- Witness for the amended C5: a column with datetime-parse fraction
exactly 0.70 is kept as Datetime (inclusive threshold), and the
0.70-numeric column of the counterexample is classified Categorical. -/
theorem stdCol_thresholds_witness :
    stdCol Dwit 10 (Col.obj c5dates) = Col.dt (coerceDates Dwit c5dates)
      ∧ stdCol Dwit 10 (Col.obj c5cells)
          = Col.obj ((coerceDates Dwit c5cells).map (stringRepr Dwit)) :=
  ⟨(stdCol_thresholds Dwit goodDwit 10 c5dates (by decide)).1 (by decide),
   (stdCol_thresholds Dwit goodDwit 10 c5cells (by decide)).2 (by decide)⟩

/-- With no missing cells, the valid values are all the cells. -/
theorem filterMap_id_length_allSome {α : Type} (xs : List (Option α))
    (h : ∀ o ∈ xs, o.isSome = true) :
    (xs.filterMap id).length = xs.length := by
  induction xs with
  | nil => rfl
  | cons o os ih =>
    cases o with
    | none => exact absurd (h none (List.mem_cons_self _ _)) (by simp)
    | some a =>
      rw [List.filterMap_cons]
      simpa using ih (fun o ho => h o (List.mem_cons_of_mem _ ho))

/-- Imputation does not change a column without missing cells. -/
theorem map_getD_allSome {α : Type} (xs : List (Option α)) (d : α)
    (h : ∀ o ∈ xs, o.isSome = true) :
    xs.map (fun o => some (o.getD d)) = xs := by
  have : ∀ o ∈ xs, some (o.getD d) = o := by
    intro o ho
    cases o with
    | none => exact absurd (h none ho) (by simp)
    | some a => rfl
  rw [List.map_congr_left this, List.map_id']

/-- Reading every index of a list in order reproduces it. -/
theorem map_getD_range {α : Type} (xs : List α) (d : α) :
    (List.range xs.length).map (fun i => xs.getD i d) = xs := by
  induction xs with
  | nil => rfl
  | cons a as ih =>
    rw [List.length_cons, List.range_succ_eq_map, List.map_cons, List.map_map]
    refine congrArg (a :: ·) ?_
    simpa [Function.comp_def] using ih

/-- The empty/nan replacement leaves untouched a column without such
cells. -/
theorem replaceEmptyNan_id (xs : List (Option String))
    (h : ∀ o ∈ xs, o ≠ some "" ∧ o ≠ some "nan") :
    replaceEmptyNan xs = xs := by
  have : ∀ o ∈ xs, (if o = some "" ∨ o = some "nan" then none else o) = o := by
    intro o ho
    rw [if_neg]
    intro hc
    rcases hc with hc | hc
    · exact (h o ho).1 hc
    · exact (h o ho).2 hc
  rw [replaceEmptyNan, List.map_congr_left this, List.map_id']

/-- A printed timestamp cannot be a string that coerces to NaT. -/
theorem print_ne (D : DateCodec) (hD : GoodCodec D) (t : ℕ) {s : String}
    (hs : D.parse s = none) : D.print t ≠ s := by
  intro he
  rw [← he, hD.roundtrip t] at hs
  exact Option.noConfusion hs

theorem dtAstype_mem (D : DateCodec) (hD : GoodCodec D)
    (xs : List (Option ℕ)) :
    ∀ o ∈ dtAstype D xs, o.isSome = true ∧ o ≠ some "" ∧ o ≠ some "nan" := by
  intro o ho
  obtain ⟨od, _, rfl⟩ := List.mem_map.mp ho
  cases od with
  | none =>
    rw [show dtStr D none = "NaT" from rfl]
    exact ⟨rfl, by decide, by decide⟩
  | some t =>
    rw [show dtStr D (some t) = D.print t from rfl]
    refine ⟨rfl, ?_, ?_⟩ <;> intro hc <;> rw [Option.some_inj] at hc
    · exact print_ne D hD t hD.parseEmpty hc
    · exact print_ne D hD t hD.parseNanStr hc

theorem stringRepr_mem (D : DateCodec) (hD : GoodCodec D)
    (ds : List (Option ℕ)) :
    ∀ o ∈ ds.map (stringRepr D),
      o.isSome = true ∧ o ≠ some "" ∧ o ≠ some "nan" := by
  intro o ho
  obtain ⟨od, _, rfl⟩ := List.mem_map.mp ho
  cases od with
  | none =>
    rw [show stringRepr D none = some "nat" from rfl]
    exact ⟨rfl, by decide, by decide⟩
  | some t =>
    rw [show stringRepr D (some t) = some (D.print t) from rfl]
    refine ⟨rfl, ?_, ?_⟩ <;> intro hc <;> rw [Option.some_inj] at hc
    · exact print_ne D hD t hD.parseEmpty hc
    · exact print_ne D hD t hD.parseNanStr hc

/-- Re-coercing the stringified form of a datetime column restores it. -/
theorem coerceDates_dtAstype (D : DateCodec) (hD : GoodCodec D)
    (xs : List (Option ℕ)) : coerceDates D (dtAstype D xs) = xs := by
  rw [coerceDates, dtAstype, List.map_map]
  have : ∀ o ∈ xs, ((fun o2 => Option.bind o2 D.parse)
      ∘ fun o2 => some (dtStr D o2)) o = o := by
    intro o _
    cases o with
    | none => simpa [dtStr] using hD.parseNaT
    | some t => simpa [dtStr] using hD.roundtrip t
  rw [List.map_congr_left this, List.map_id']

/-- Re-coercing the canonical categorical strings restores the coerced
values. -/
theorem coerceDates_stringRepr (D : DateCodec) (hD : GoodCodec D)
    (ds : List (Option ℕ)) : coerceDates D (ds.map (stringRepr D)) = ds := by
  rw [coerceDates, List.map_map]
  have : ∀ o ∈ ds, ((fun o2 => Option.bind o2 D.parse) ∘ stringRepr D) o = o := by
    intro o _
    cases o with
    | none => simpa [stringRepr] using hD.parseNatLower
    | some t => simpa [stringRepr] using hD.roundtrip t
  rw [List.map_congr_left this, List.map_id']

/-- Imputation preserves the column length. -/
theorem colLen_hmCol (D : DateCodec) (c : Col) : colLen (hmCol D c) = colLen c := by
  cases c <;>
    simp [hmCol, colLen, imputeNum, imputeStr, replaceEmptyNan, objAstype, dtAstype]

/-- Standardization preserves the column length. -/
theorem colLen_stdCol (D : DateCodec) (n : ℕ) (c : Col) :
    colLen (stdCol D n c) = colLen c := by
  cases c with
  | num xs => rfl
  | dt xs => rfl
  | obj xs =>
    simp only [stdCol]
    split
    · split <;> simp [colLen, stringifyCoerced, coerceDates]
    · simp [colLen, coerceDates]

/-- Selection produces one cell per requested index. -/
theorem colLen_selectCol (idxs : List ℕ) (c : Col) :
    colLen (selectCol idxs c) = idxs.length := by
  cases c <;> simp [selectCol, selectIdx, colLen]

/-- At most every row index is kept. -/
theorem length_keptIndices_le (df : DataFrame) :
    (keptIndices df).length ≤ rowCount df := by
  refine le_trans (List.length_filter_le _ _) ?_
  rw [List.length_range]

/-- Mapping a length-preserving transform over the columns preserves the
row count. -/
theorem rowCount_map_cols (f : Col → Col) (hf : ∀ c, colLen (f c) = colLen c)
    (df : DataFrame) :
    rowCount (df.map (fun p => (p.1, f p.2))) = rowCount df := by
  cases df with
  | nil => rfl
  | cons p rest => exact hf p.2

/-- The shape every column of `process_data` output has, relative to the
output row count `n`: numeric columns have no missing cells; datetime
columns failed the revert test; object columns are the canonical strings
of a coerced list that passed the revert test. -/
inductive CleanedCol (D : DateCodec) (n : ℕ) : Col → Prop where
  | num (xs : List (Option ℚ)) (h : ∀ o ∈ xs, o.isSome = true) :
      CleanedCol D n (Col.num xs)
  | dt (xs : List (Option ℕ)) (h : ¬(n ≠ 0 ∧ 10 * dtCount xs < 7 * n)) :
      CleanedCol D n (Col.dt xs)
  | obj (ds : List (Option ℕ)) (h : n ≠ 0 ∧ 10 * dtCount ds < 7 * n) :
      CleanedCol D n (Col.obj (ds.map (stringRepr D)))

/-- Standardizing any object column yields a cleaned column. -/
theorem stdCol_obj_cleaned (D : DateCodec) (hD : GoodCodec D) (n : ℕ)
    (ys : List (Option String)) :
    CleanedCol D n (stdCol D n (Col.obj ys)) := by
  by_cases hcond : n ≠ 0 ∧ 10 * dtCount (coerceDates D ys) < 7 * n
  · rw [(stdCol_thresholds D hD n ys hcond.1).2 hcond.2]
    exact CleanedCol.obj _ hcond
  · have he : stdCol D n (Col.obj ys) = Col.dt (coerceDates D ys) := by
      simp only [stdCol]
      rw [if_neg hcond]
    rw [he]
    exact CleanedCol.dt _ hcond

/-- Imputation then standardization yields a cleaned column, for every
input column. -/
theorem stdCol_hmCol_cleaned (D : DateCodec) (hD : GoodCodec D) (n : ℕ)
    (c : Col) : CleanedCol D n (stdCol D n (hmCol D c)) := by
  cases c with
  | num xs =>
    refine CleanedCol.num _ ?_
    intro o ho
    obtain ⟨od, _, rfl⟩ := List.mem_map.mp ho
    rfl
  | obj xs => exact stdCol_obj_cleaned D hD n _
  | dt xs => exact stdCol_obj_cleaned D hD n _

/-- Cleaned columns have the C2 no-missing property per kind. -/
def colNoMissing : Col → Bool
  | Col.num xs => xs.all (fun o => o.isSome)
  | Col.obj xs => xs.all (fun o => o.isSome)
  | Col.dt _ => true

theorem cleaned_noMissing (D : DateCodec) (n : ℕ) (c : Col)
    (hc : CleanedCol D n c) : colNoMissing c = true := by
  cases hc with
  | num xs h => simpa [colNoMissing, List.all_eq_true] using h
  | dt xs h => rfl
  | obj ds h =>
    rw [colNoMissing, List.all_eq_true]
    intro o ho
    obtain ⟨od, _, rfl⟩ := List.mem_map.mp ho
    cases od <;> rfl

/-- Running the imputation and standardization a second time leaves a
cleaned column unchanged. -/
theorem stdCol_hmCol_id (D : DateCodec) (hD : GoodCodec D) (n : ℕ) (c : Col)
    (hc : CleanedCol D n c) : stdCol D n (hmCol D c) = c := by
  cases hc with
  | num xs h =>
    show stdCol D n (Col.num (imputeNum xs)) = Col.num xs
    rw [show imputeNum xs = xs from map_getD_allSome xs _ h]
    rfl
  | dt xs h =>
    show stdCol D n (Col.obj (imputeStr (replaceEmptyNan (dtAstype D xs))))
        = Col.dt xs
    rw [replaceEmptyNan_id _ (fun o ho => (dtAstype_mem D hD xs o ho).2),
      show imputeStr (dtAstype D xs) = dtAstype D xs from
        map_getD_allSome _ _ (fun o ho => (dtAstype_mem D hD xs o ho).1)]
    simp only [stdCol]
    rw [coerceDates_dtAstype D hD xs, if_neg h]
  | obj ds h =>
    show stdCol D n
        (Col.obj (imputeStr (replaceEmptyNan (objAstype (ds.map (stringRepr D))))))
        = Col.obj (ds.map (stringRepr D))
    rw [show objAstype (ds.map (stringRepr D)) = ds.map (stringRepr D) from
        map_getD_allSome _ _ (fun o ho => (stringRepr_mem D hD ds o ho).1),
      replaceEmptyNan_id _ (fun o ho => (stringRepr_mem D hD ds o ho).2),
      show imputeStr (ds.map (stringRepr D)) = ds.map (stringRepr D) from
        map_getD_allSome _ _ (fun o ho => (stringRepr_mem D hD ds o ho).1)]
    have h2 := (stdCol_thresholds D hD n (ds.map (stringRepr D)) h.1).2
    rw [coerceDates_stringRepr D hD ds] at h2
    exact h2 h.2

/-- De-duplication can only shrink the row count. -/
theorem rowCount_drop_duplicates (df : DataFrame) :
    rowCount (drop_duplicates df) ≤ rowCount df := by
  cases df with
  | nil => exact le_refl 0
  | cons p rest =>
    show colLen (selectCol (keptIndices (p :: rest)) p.2) ≤ _
    rw [colLen_selectCol]
    exact length_keptIndices_le _

/-- The de-duplicated DataFrame is rectangular (every column is cut down to
the kept indices), whatever the input was. -/
theorem rect_drop_duplicates (df : DataFrame) :
    Rectangular (drop_duplicates df) := by
  intro p hp
  obtain ⟨q, hq, rfl⟩ := List.mem_map.mp hp
  rw [colLen_selectCol]
  cases df with
  | nil => cases hq
  | cons r rest =>
    show _ = colLen (selectCol (keptIndices (r :: rest)) r.2)
    rw [colLen_selectCol]

/-- A length-preserving per-column transform keeps the DataFrame
rectangular. -/
theorem rect_map_cols (f : Col → Col) (hf : ∀ c, colLen (f c) = colLen c)
    (df : DataFrame) (h : Rectangular df) :
    Rectangular (df.map (fun p => (p.1, f p.2))) := by
  intro p hp
  obtain ⟨q, hq, rfl⟩ := List.mem_map.mp hp
  rw [rowCount_map_cols f hf df, hf]
  exact h q hq

/-- C2: for every input table on which `process_data` returns, the output
has zero missing values in every numeric and every object (categorical)
column — only datetime columns may retain missing — and its row count is
at most the input row count. -/
theorem process_data_invariants (D : DateCodec) (hD : GoodCodec D)
    (df out : DataFrame) (h : process_data D df = some out) :
    (∀ p ∈ out, colNoMissing p.2 = true) ∧ rowCount out ≤ rowCount df := by
  unfold process_data handle_missing_values at h
  by_cases hab : (drop_duplicates df).any (fun p => imputerAborts D p.2) = true
  · rw [if_pos hab] at h
    cases h
  · rw [if_neg hab] at h
    rw [show Option.map (standardize_formats D)
        (some ((drop_duplicates df).map (fun p => (p.1, hmCol D p.2))))
        = some (standardize_formats D
            ((drop_duplicates df).map (fun p => (p.1, hmCol D p.2)))) from rfl] at h
    cases h
    constructor
    · intro p hp
      obtain ⟨q, hq, rfl⟩ := List.mem_map.mp hp
      obtain ⟨r, hr, rfl⟩ := List.mem_map.mp hq
      exact cleaned_noMissing D _ _ (stdCol_hmCol_cleaned D hD _ r.2)
    · rw [standardize_formats,
        rowCount_map_cols _ (colLen_stdCol D _),
        rowCount_map_cols _ (colLen_hmCol D)]
      exact rowCount_drop_duplicates df

/-- Concrete mixed table for the C2 witness. -/
def dfMixed : DataFrame :=
  [("a", Col.num [some 1, some 2]), ("b", Col.obj [some "x", none])]

/-- Its processed form: the missing categorical cell was imputed and the
whole column was then coerced to the literal "nat". -/
def outMixed : DataFrame :=
  [("a", Col.num [some 1, some 2]), ("b", Col.obj [some "nat", some "nat"])]

/-- Witness for C2 on a concrete table with one missing categorical cell. -/
theorem process_data_invariants_witness :
    process_data Dwit dfMixed = some outMixed
      ∧ (∀ p ∈ outMixed, colNoMissing p.2 = true)
      ∧ rowCount outMixed ≤ rowCount dfMixed :=
  ⟨by decide,
   (process_data_invariants Dwit goodDwit dfMixed outMixed (by decide)).1,
   (process_data_invariants Dwit goodDwit dfMixed outMixed (by decide)).2⟩

/-- Selecting every index of a column in order is the identity. -/
theorem selectCol_range (c : Col) : selectCol (List.range (colLen c)) c = c := by
  cases c with
  | num xs =>
    show Col.num (selectIdx xs none (List.range xs.length)) = Col.num xs
    rw [selectIdx, map_getD_range]
  | obj xs =>
    show Col.obj (selectIdx xs none (List.range xs.length)) = Col.obj xs
    rw [selectIdx, map_getD_range]
  | dt xs =>
    show Col.dt (selectIdx xs none (List.range xs.length)) = Col.dt xs
    rw [selectIdx, map_getD_range]

/-- On a rectangular table with pairwise-distinct rows, `drop_duplicates`
is the identity. -/
theorem drop_duplicates_eq_self (df : DataFrame) (hrect : Rectangular df)
    (hnd : (rowsOf df).Nodup) : drop_duplicates df = df := by
  have hpw : List.Pairwise (fun a b => rowAt df a ≠ rowAt df b)
      (List.range (rowCount df)) := by
    rw [rowsOf] at hnd
    exact List.pairwise_map.mp hnd
  have hkeep : keptIndices df = List.range (rowCount df) := by
    rw [keptIndices, List.filter_eq_self]
    intro i hi
    rw [decide_eq_true_eq]
    intro j hj
    rw [List.mem_range] at hj
    have hi2 : i < rowCount df := List.mem_range.mp hi
    have := (List.pairwise_iff_getElem.mp hpw) j i
      (by rw [List.length_range] ; omega) (by rw [List.length_range] ; omega) hj
    simpa [List.getElem_range] using this
  rw [drop_duplicates, hkeep]
  have hid : ∀ p ∈ df, ((p.1, selectCol (List.range (rowCount df)) p.2) : String × Col) = p := by
    intro p hp
    rw [← hrect p hp, selectCol_range]
  rw [List.map_congr_left hid, List.map_id']

/-- A column that does not abort the imputer is nonempty. -/
theorem no_abort_colLen_ne_zero (D : DateCodec) (c : Col)
    (h : imputerAborts D c = false) : colLen c ≠ 0 := by
  cases c with
  | num xs =>
    intro h0
    rw [show colLen (Col.num xs) = xs.length from rfl, List.length_eq_zero] at h0
    subst h0
    simp [imputerAborts, validVals] at h
  | obj xs =>
    intro h0
    rw [show colLen (Col.obj xs) = xs.length from rfl, List.length_eq_zero] at h0
    subst h0
    simp [imputerAborts, validStr, replaceEmptyNan, objAstype] at h
  | dt xs =>
    intro h0
    rw [show colLen (Col.dt xs) = xs.length from rfl, List.length_eq_zero] at h0
    subst h0
    simp [imputerAborts, validStr, replaceEmptyNan, dtAstype] at h

/-- A nonempty cleaned column does not abort the imputer on a second run. -/
theorem cleaned_no_abort (D : DateCodec) (hD : GoodCodec D) (n : ℕ) (c : Col)
    (hc : CleanedCol D n c) (hlen : colLen c = n) (hn : n ≠ 0) :
    imputerAborts D c = false := by
  cases hc with
  | num xs h =>
    show decide (validVals xs = []) = false
    rw [decide_eq_false_iff_not]
    intro hnil
    have hl := filterMap_id_length_allSome xs h
    rw [show validVals xs = xs.filterMap id from rfl] at hnil
    rw [hnil, List.length_nil] at hl
    rw [show colLen (Col.num xs) = xs.length from rfl] at hlen
    omega
  | dt xs h =>
    show decide (validStr (replaceEmptyNan (dtAstype D xs)) = []) = false
    rw [replaceEmptyNan_id _ (fun o ho => (dtAstype_mem D hD xs o ho).2),
      decide_eq_false_iff_not]
    intro hnil
    have hl := filterMap_id_length_allSome (dtAstype D xs)
      (fun o ho => (dtAstype_mem D hD xs o ho).1)
    rw [show validStr (dtAstype D xs) = (dtAstype D xs).filterMap id from rfl] at hnil
    rw [hnil, List.length_nil] at hl
    rw [show colLen (Col.dt xs) = xs.length from rfl] at hlen
    rw [show (dtAstype D xs).length = xs.length from by simp [dtAstype]] at hl
    omega
  | obj ds h2 =>
    show decide (validStr (replaceEmptyNan (objAstype (ds.map (stringRepr D)))) = []) = false
    rw [show objAstype (ds.map (stringRepr D)) = ds.map (stringRepr D) from
        map_getD_allSome _ _ (fun o ho => (stringRepr_mem D hD ds o ho).1),
      replaceEmptyNan_id _ (fun o ho => (stringRepr_mem D hD ds o ho).2),
      decide_eq_false_iff_not]
    intro hnil
    have hl := filterMap_id_length_allSome (ds.map (stringRepr D))
      (fun o ho => (stringRepr_mem D hD ds o ho).1)
    rw [show validStr (ds.map (stringRepr D)) = (ds.map (stringRepr D)).filterMap id from rfl] at hnil
    rw [hnil, List.length_nil] at hl
    rw [show colLen (Col.obj (ds.map (stringRepr D))) = (ds.map (stringRepr D)).length from rfl] at hlen
    omega

/-- C1 (amended): `process_data` is idempotent on every input whose
processed output has pairwise-distinct rows: running it again on its own
output returns that output unchanged.  (On outputs containing duplicate
rows — which imputation and case-folding can create from distinct input
rows — the second run deduplicates further, so unrestricted idempotence
fails.) -/
theorem process_data_idempotent (D : DateCodec) (hD : GoodCodec D)
    (df out : DataFrame) (h : process_data D df = some out)
    (hnd : (rowsOf out).Nodup) : process_data D out = some out := by
  unfold process_data handle_missing_values at h
  by_cases hab : (drop_duplicates df).any (fun p => imputerAborts D p.2) = true
  · rw [if_pos hab] at h
    cases h
  · rw [if_neg hab] at h
    rw [show Option.map (standardize_formats D)
        (some ((drop_duplicates df).map (fun p => (p.1, hmCol D p.2))))
        = some (standardize_formats D
            ((drop_duplicates df).map (fun p => (p.1, hmCol D p.2)))) from rfl] at h
    rw [Option.some_inj] at h
    -- row-count bookkeeping
    have hrectd : Rectangular (drop_duplicates df) := rect_drop_duplicates df
    have hrect2 : Rectangular ((drop_duplicates df).map (fun p => (p.1, hmCol D p.2))) :=
      rect_map_cols _ (colLen_hmCol D) _ hrectd
    have hrectout : Rectangular out := by
      rw [← h, standardize_formats]
      exact rect_map_cols _ (colLen_stdCol D _) _ hrect2
    have hnout : rowCount out
        = rowCount ((drop_duplicates df).map (fun p => (p.1, hmCol D p.2))) := by
      rw [← h, standardize_formats, rowCount_map_cols _ (colLen_stdCol D _)]
    -- every output column is cleaned at the output row count
    have hclean : ∀ p ∈ out, CleanedCol D (rowCount out) p.2 := by
      intro p hp
      rw [← h, standardize_formats] at hp
      obtain ⟨q, hq, rfl⟩ := List.mem_map.mp hp
      obtain ⟨r, hr, rfl⟩ := List.mem_map.mp hq
      rw [hnout]
      exact stdCol_hmCol_cleaned D hD _ r.2
    by_cases hout0 : out = []
    · rw [hout0]
      rfl
    · -- the output row count is non-zero
      have hn0 : rowCount out ≠ 0 := by
        have habf := Bool.eq_false_iff.mpr hab
        rw [List.any_eq_false] at habf
        obtain ⟨p0, rest, hcons⟩ := List.exists_cons_of_ne_nil (by
          intro hdnil
          refine hout0 ?_
          rw [← h, hdnil]
          rfl : drop_duplicates df ≠ [])
        rw [hnout, hcons]
        show colLen (hmCol D p0.2) ≠ 0
        rw [colLen_hmCol]
        refine no_abort_colLen_ne_zero D p0.2 ?_
        have := habf p0 (by rw [hcons] ; exact List.mem_cons_self _ _)
        simpa using this
      -- second run
      unfold process_data handle_missing_values
      rw [drop_duplicates_eq_self out hrectout hnd]
      have hab2 : out.any (fun p => imputerAborts D p.2) = true → False := by
        rw [List.any_eq_true]
        rintro ⟨p, hp, habp⟩
        rw [cleaned_no_abort D hD (rowCount out) p.2 (hclean p hp)
          (hrectout p hp) hn0] at habp
        exact Bool.false_ne_true habp
      rw [if_neg hab2]
      rw [show Option.map (standardize_formats D)
          (some (out.map (fun p => (p.1, hmCol D p.2))))
          = some (standardize_formats D (out.map (fun p => (p.1, hmCol D p.2)))) from rfl]
      rw [Option.some_inj, standardize_formats,
        rowCount_map_cols _ (colLen_hmCol D), List.map_map]
      have hid : ∀ p ∈ out,
          ((fun p => (p.1, stdCol D (rowCount out) p.2))
            ∘ (fun p => (p.1, hmCol D p.2))) p = p := by
        intro p hp
        show (p.1, stdCol D (rowCount out) (hmCol D p.2)) = p
        rw [stdCol_hmCol_id D hD (rowCount out) p.2 (hclean p hp)]
      rw [List.map_congr_left hid, List.map_id']

/-- Two distinct raw rows for the C1 counterexample. -/
def dfTwoObj : DataFrame := [("c", Col.obj [some "a", some "b"])]

/-- Their processed image: both became the literal "nat". -/
def outTwoObj : DataFrame := [("c", Col.obj [some "nat", some "nat"])]

/-- What the second run returns: one row survives dedup. -/
def outOneRow : DataFrame := [("c", Col.obj [some "nat"])]

/-- C1 counterexample: cleaning is NOT idempotent.  On the 2-row table with
categorical values "a" and "b", `process_data` coerces both cells to the
identical literal "nat" (the datetime revert destroys the originals), and
the second run's `drop_duplicates` then removes a row:
`process_data(process_data(T))` has 1 row, `process_data(T)` has 2. -/
theorem process_data_not_idempotent :
    process_data Dwit dfTwoObj = some outTwoObj
      ∧ process_data Dwit outTwoObj = some outOneRow
      ∧ process_data Dwit outTwoObj ≠ process_data Dwit dfTwoObj := by
  refine ⟨by decide, by decide, ?_⟩
  intro hc
  rw [show process_data Dwit outTwoObj = some outOneRow from by decide,
    show process_data Dwit dfTwoObj = some outTwoObj from by decide] at hc
  rw [Option.some_inj] at hc
  exact absurd hc (by decide)

/-- One-row table whose processed output has distinct rows. -/
def dfOneObj : DataFrame := [("c", Col.obj [some "a"])]

/-- Witness for the amended C1: the processed one-row table has no
duplicate rows, and reprocessing it returns it unchanged. -/
theorem process_data_idempotent_witness :
    process_data Dwit dfOneObj = some outOneRow
      ∧ (rowsOf outOneRow).Nodup
      ∧ process_data Dwit outOneRow = some outOneRow :=
  ⟨by decide, by decide,
    process_data_idempotent Dwit goodDwit dfOneObj outOneRow (by decide) (by decide)⟩
